import Mathlib

/-!
Shallow embedding of the SEC-filing collection pipeline
(`collect_bank_sec_data.py`, with the sibling variant `collect_bank_data.py`
where a claim cites it).

Filesystem state is modelled explicitly: a directory tree is a list of
`FSTree` nodes (files carry their size in bytes); the contents of one
filing-form directory during renaming is a list of directory-name strings.
Remote I/O (the EDGAR downloader, reading header files from disk) is
modelled by oracle functions or by record fields carrying the values the
I/O would produce.
-/

namespace BankSec

/-- A node of the staged directory tree: a file with its size, or a
directory with its children. -/
inductive FSTree where
  | file : String → Nat → FSTree
  | dir : String → List FSTree → FSTree

def FSTree.nodeName : FSTree → String
  | .file n _ => n
  | .dir n _ => n

def FSTree.isDir : FSTree → Bool
  | .file _ _ => false
  | .dir _ _ => true

/-- `filings_config`: the fixed (form-type, expected-count) menu. -/
def filingsConfig : List (String × Nat) :=
  [("10-K", 2), ("10-Q", 8), ("DEF 14A", 2), ("8-K", 8)]

/-- Resolve a child of a directory by name, as `path / name` does:
the first entry with that name, file or directory. -/
def lookupChild (entries : List FSTree) (nm : String) : Option FSTree :=
  entries.find? (fun t => t.nodeName == nm)

mutual
/-- `any f.is_file() with f.stat().st_size == 0` over `rglob("*")`
starting below the given node. -/
def hasEmptyFile : FSTree → Bool
  | .file _ sz => sz == 0
  | .dir _ cs => hasEmptyFileList cs
def hasEmptyFileList : List FSTree → Bool
  | [] => false
  | t :: ts => hasEmptyFile t || hasEmptyFileList ts
end

/-- The per-requirement loop body of `_ticker_filings_ok`.  `Except.error`
marks the one place the Python would raise (iterating a non-directory);
`.ok (some dirName)` is the early `return ticker`. -/
def checkForms (dirName : String) (entries : List FSTree) :
    List (String × Nat) → Except Unit (Option String)
  | [] => Except.ok none
  | (formType, expectedCount) :: rest =>
    match lookupChild entries formType with
    | none => Except.ok (some dirName)
    | some (.file _ _) => Except.error ()
    | some (.dir _ cs) =>
      let filingDirs := cs.filter FSTree.isDir
      if filingDirs.length ≠ expectedCount then Except.ok (some dirName)
      else if hasEmptyFileList filingDirs then Except.ok (some dirName)
      else checkForms dirName entries rest

/-- `_ticker_filings_ok(ticker_dir)`: `dirName` is `ticker_dir.name`,
`entries` the children of `ticker_dir` (a path that does not exist on disk
has no children, so it is passed as `[]`). -/
def tickerFilingsOk (dirName : String) (entries : List FSTree) :
    Except Unit (Option String) :=
  checkForms dirName entries filingsConfig

/-- `DELISTED_TICKER_TO_CIK`: the static delisted-ticker override table. -/
def DELISTED_TICKER_TO_CIK : List (String × String) :=
  [("DFS", "0001393612"), ("CMA", "0000028412"),
   ("SNV", "0000018349"), ("PNFP", "0001115055")]

/-- `DELISTED_TICKER_TO_CIK.get(ticker, ticker)`: the Entity Resolver. -/
def resolve (ticker : String) : String :=
  (DELISTED_TICKER_TO_CIK.lookup ticker).getD ticker

/-- Value of a decimal digit character, as `int` parses it. -/
def digitVal (c : Char) : Nat := c.toNat - 48

/-- `int(s[i:i+2])` for a string of digits: the two-digit number at
character positions `i`, `i+1`. -/
def twoDigitAt (s : String) (i : Nat) : Nat :=
  10 * digitVal (s.toList.getD i '0') + digitVal (s.toList.getD (i + 1) '0')

/-- `_fiscal_quarter(period_str, fy_end_str)`:
`4 - (abs(period_month - fy_end_month) % 12) // 3` where
`period_month = int(period_str[4:6])` and `fy_end_month = int(fy_end_str[:2])`. -/
def fiscalQuarter (periodStr fyEndStr : String) : Nat :=
  let periodMonth : Int := twoDigitAt periodStr 4
  let fyEndMonth : Int := twoDigitAt fyEndStr 0
  4 - ((periodMonth - fyEndMonth).natAbs % 12) / 3

/-- `max_attempts = 5`. -/
def maxAttempts : Nat := 5

/-- Observable state accumulated by `download_sec_filings`:
the global `download_failures` and `incomplete_tickers` lists, plus two
logs recording what the run did — one `(lookup, form_type)` entry per
`dl.get` call and one ticker entry per fetch-verify cycle. -/
structure DLState where
  downloadFailures : List String
  incompleteTickers : List String
  attemptLog : List (String × String)
  cycleLog : List String

def DLState.init : DLState := ⟨[], [], [], []⟩

/-- The inner `for form_type, limit in filings_config` loop of
`download_sec_filings`.  `fetch lookup formType attemptNum` is the
downloader oracle: `some e` means `dl.get` raised an exception with
message `e`, `none` means it succeeded. -/
def fetchForms (fetch : String → String → Nat → Option String)
    (ticker lookup : String) (attemptNum : Nat) :
    List (String × Nat) → DLState → DLState
  | [], st => st
  | cfg :: rest, st =>
    let st := { st with attemptLog := st.attemptLog ++ [(lookup, cfg.1)] }
    let st :=
      match fetch lookup cfg.1 attemptNum with
      | none => st
      | some e =>
        { st with downloadFailures :=
            st.downloadFailures ++ [ticker ++ "/" ++ cfg.1 ++ ": " ++ e] }
    fetchForms fetch ticker lookup attemptNum rest st

/-- The per-ticker body of `download_sec_filings`, including the
recursive single-ticker retry call.  `verify lookup attemptNum` is the
result `_ticker_filings_ok(SEC_DIR / lookup)` would give after the
downloads of that attempt (`some inc` = incomplete ticker `inc`). -/
def processTicker (fetch : String → String → Nat → Option String)
    (verify : String → Nat → Option String)
    (ticker : String) (attemptNum : Nat) (st : DLState) : DLState :=
  let lookup := resolve ticker
  let st1 := { st with cycleLog := st.cycleLog ++ [ticker] }
  let st2 := fetchForms fetch ticker lookup attemptNum filingsConfig st1
  match verify lookup attemptNum with
  | none => st2
  | some inc =>
    if hle : attemptNum ≤ maxAttempts then
      processTicker fetch verify ticker (attemptNum + 1) st2
    else
      { st2 with incompleteTickers := st2.incompleteTickers ++ [inc] }
termination_by maxAttempts + 1 - attemptNum
decreasing_by simp only [maxAttempts] at hle ⊢; omega

/-- `download_sec_filings(tickers)`: the top-level loop over the roster,
each ticker entering at `attempt_num = 1`. -/
def downloadSecFilings (fetch : String → String → Nat → Option String)
    (verify : String → Nat → Option String)
    (tickers : List String) : DLState :=
  tickers.foldl (fun st t => processTicker fetch verify t 1 st) DLState.init

/-- Python `str.replace` on character lists: replace the non-overlapping
occurrences of `old` left to right.  The fuel argument is the length of
the scanned list; every step consumes at least one character (all `old`
patterns in this program are non-empty), so that fuel always suffices. -/
def replaceChars (old new : List Char) : Nat → List Char → List Char
  | _, [] => []
  | 0, s => s
  | fuel + 1, c :: cs =>
    if (c :: cs).take old.length = old then
      new ++ replaceChars old new fuel ((c :: cs).drop old.length)
    else c :: replaceChars old new fuel cs

/-- Python `s.replace(old, new)`. -/
def pyReplace (s old new : String) : String :=
  ⟨replaceChars old.toList new.toList s.toList.length s.toList⟩

/-- Python `s.startswith(pre)`. -/
def pyStartsWith (s pre : String) : Bool :=
  s.toList.take pre.toList.length == pre.toList

/-- `form_type.replace(" ", "").replace("/", "-")`. -/
def cleanForm (formType : String) : String :=
  pyReplace (pyReplace formType " " "") "/" "-"

/-- The candidate friendly name
`f"{ticker}_{form_clean}_{year}_Q{quarter}"` built from a parsed header
(`year = period_str[:4]`). -/
def candidateName (ticker formType periodStr fyEndStr : String) : String :=
  ticker ++ "_" ++ cleanForm formType ++ "_" ++
    (periodStr.take 4) ++ "_Q" ++ toString (fiscalQuarter periodStr fyEndStr)

/-- The `while (form_dir / f"{friendly}_{suffix}").exists(): suffix += 1`
loop: first suffix ≥ `suffix` whose name is free.  The Python loop is
bounded by the finitely many existing entries; `fuel` makes that bound
explicit and is always called with more fuel than `fs` has entries. -/
def findSuffix (fs : List String) (friendly : String) :
    Nat → Nat → String
  | suffix, 0 => friendly ++ "_" ++ toString suffix
  | suffix, fuel + 1 =>
    if (friendly ++ "_" ++ toString suffix) ∈ fs then
      findSuffix fs friendly (suffix + 1) fuel
    else friendly ++ "_" ++ toString suffix

/-- Collision handling of `rename_sec_folders` in
`collect_bank_sec_data.py`: use `friendly` if free, otherwise the first
free `friendly_{suffix}` starting from suffix 2. -/
def resolveTarget (fs : List String) (friendly : String) : String :=
  if friendly ∈ fs then findSuffix fs friendly 2 (fs.length + 1)
  else friendly

/-- One staged accession directory, with the values
`_parse_filing_header` would return for it (`none` = field not found or
file unreadable). -/
structure Bundle where
  name : String
  period : Option String
  fyEnd : Option String

/-- State of one form directory during renaming: the names currently in
the directory, the `(old, new)` rename log, the `rename_failures`
entries contributed, and `renamed_count`. -/
structure RenState where
  fs : List String
  renLog : List (String × String)
  failures : List String
  renamedCount : Nat
deriving DecidableEq

/-- The per-accession body of `rename_sec_folders` in
`collect_bank_sec_data.py` (lines 185-205): parse the header, build the
friendly name, resolve collisions against the live directory, rename;
any exception (in particular a `None` period or fiscal-year-end, which
makes the slicing / `int` conversion raise) lands in `rename_failures`
and leaves the directory untouched. -/
def processAccessionSec (ticker formType : String) (st : RenState)
    (b : Bundle) : RenState :=
  match b.period, b.fyEnd with
  | some p, some fy =>
    let friendly := candidateName ticker formType p fy
    let newPath := resolveTarget st.fs friendly
    { fs := newPath :: st.fs.erase b.name,
      renLog := st.renLog ++ [(b.name, newPath)],
      failures := st.failures,
      renamedCount := st.renamedCount + 1 }
  | _, _ => { st with failures := st.failures ++ [b.name] }

/-- The `for accession_dir in sorted(form_dir.iterdir())` loop of
`collect_bank_sec_data.py`'s `rename_sec_folders`, over the listing
taken before any rename. -/
def renameFormSec (ticker formType : String) (st : RenState)
    (bundles : List Bundle) : RenState :=
  bundles.foldl (processAccessionSec ticker formType) st

/-- Trailing-year fallback of `collect_bank_data.py`'s renamer: the
regex `-(\d{2})-\d+$` applied to the accession name, mapped to
`str(2000 + yy)`. -/
def yearFromAccession (nm : String) : Option String :=
  let cs := nm.toList.reverse
  let ds := cs.takeWhile Char.isDigit
  if ds.isEmpty then none
  else
    match cs.drop ds.length with
    | '-' :: d2 :: d1 :: '-' :: _ =>
      if d1.isDigit && d2.isDigit then
        some (toString (2000 + (10 * digitVal d1 + digitVal d2)))
      else none
    | _ => none

/-- One accession directory as seen by `collect_bank_data.py`'s renamer.
`detailsDate` and `jsonDate` are modelled as oracle fields standing for
the I/O results of reading `filing-details.json` resp. scanning the
other `*.json` files (`some d` = a non-empty filing date `d` found). -/
structure BundleD where
  name : String
  isDirF : Bool
  detailsDate : Option String
  jsonDate : Option String

/-- The per-accession body of `rename_sec_folders` in
`collect_bank_data.py` (lines 212-262): skip non-directories and
directories already starting with the ticker, derive a filing date with
fallbacks, build the friendly name and rename with the same
suffix-collision loop. -/
def processAccessionData (ticker formType : String) (st : RenState)
    (b : BundleD) : RenState :=
  if !b.isDirF then st
  else if pyStartsWith b.name ticker then st
  else
    let filingDate :=
      match b.detailsDate with
      | some d => some d
      | none =>
        match b.jsonDate with
        | some d => some d
        | none => yearFromAccession b.name
    let friendly :=
      match filingDate with
      | some d => ticker ++ "_" ++ cleanForm formType ++ "_" ++ d
      | none => ticker ++ "_" ++ cleanForm formType ++ "_" ++ b.name
    let newPath := resolveTarget st.fs friendly
    { fs := newPath :: st.fs.erase b.name,
      renLog := st.renLog ++ [(b.name, newPath)],
      failures := st.failures,
      renamedCount := st.renamedCount + 1 }

/-- The accession loop of `collect_bank_data.py`'s `rename_sec_folders`
over one form directory. -/
def renameFormData (ticker formType : String) (st : RenState)
    (bundles : List BundleD) : RenState :=
  bundles.foldl (processAccessionData ticker formType) st

/-- The gate in `main` of `collect_bank_sec_data.py` (lines 238-242):
`zip_data_folder()` runs only in the `else` branch of
`if len(rename_failures) or len(download_failures) or len(incomplete_tickers)`. -/
def zipStepRuns (renameFailures downloadFailures incompleteTickers :
    List String) : Bool :=
  if renameFailures.length != 0 || downloadFailures.length != 0 ||
      incompleteTickers.length != 0 then false
  else true

/-- Spec-side reading of one requirement being satisfied (refinement
target for the verifier): the type subdirectory exists, the number of
bundle subdirectories exactly equals the expected count, and no file
anywhere inside a bundle subdirectory is empty. -/
def specReqSatisfied (entries : List FSTree) (req : String × Nat) : Prop :=
  ∃ nm cs, lookupChild entries req.1 = some (FSTree.dir nm cs)
    ∧ (cs.filter FSTree.isDir).length = req.2
    ∧ ∀ d ∈ cs.filter FSTree.isDir, hasEmptyFile d = false

/-- Well-formedness of a staged entity directory: each form-type child
that exists is itself a directory (as the downloader lays them out). -/
def formChildrenAreDirs (entries : List FSTree) : Bool :=
  filingsConfig.all (fun r =>
    match lookupChild entries r.1 with
    | some t => t.isDir
    | none => true)

/-- A staged form directory holding `n` bundle subdirectories, each with
one non-empty submission file. -/
def goodForm (ft : String) (n : Nat) : FSTree :=
  FSTree.dir ft ((List.range n).map (fun i =>
    FSTree.dir (ft ++ "-acc" ++ toString i)
      [FSTree.file "full-submission.txt" 100]))

/-- An entity directory satisfying every requirement of the menu
exactly, with all files non-empty. -/
def goodEntries : List FSTree :=
  [goodForm "10-K" 2, goodForm "10-Q" 8, goodForm "DEF 14A" 2,
   goodForm "8-K" 8]

/-- `goodEntries` with the content of one file zeroed out (the second
10-K bundle's submission file has size 0). -/
def zeroedEntries : List FSTree :=
  [FSTree.dir "10-K"
     [FSTree.dir "10-K-acc0" [FSTree.file "full-submission.txt" 100],
      FSTree.dir "10-K-acc1" [FSTree.file "full-submission.txt" 0]],
   goodForm "10-Q" 8, goodForm "DEF 14A" 2, goodForm "8-K" 8]

/-- Zero-padded two-digit decimal rendering of a month, as the month
appears inside the `YYYYMMDD` and `MMDD` header fields. -/
def pad2 (n : Nat) : String :=
  if n < 10 then "0" ++ toString n else toString n

lemma hasEmptyFileList_eq_false (l : List FSTree) :
    hasEmptyFileList l = false ↔ ∀ t ∈ l, hasEmptyFile t = false := by
  induction l with
  | nil => simp [hasEmptyFileList]
  | cons t ts ih => simp [hasEmptyFileList, ih]

lemma checkForms_spec (dirName : String) (entries : List FSTree)
    (L : List (String × Nat))
    (hwf : ∀ r ∈ L, ∀ t, lookupChild entries r.1 = some t →
        t.isDir = true) :
    (checkForms dirName entries L = Except.ok none ↔
        ∀ r ∈ L, specReqSatisfied entries r)
    ∧ (checkForms dirName entries L = Except.ok none ∨
        checkForms dirName entries L = Except.ok (some dirName)) := by
  induction L with
  | nil => simp [checkForms]
  | cons r rest ih =>
    obtain ⟨ft, ec⟩ := r
    have hwfrest : ∀ r ∈ rest, ∀ t, lookupChild entries r.1 = some t →
        t.isDir = true :=
      fun r hr => hwf r (List.mem_cons_of_mem _ hr)
    obtain ⟨ih1, ih2⟩ := ih hwfrest
    cases hlc : lookupChild entries ft with
    | none =>
      refine ⟨⟨fun h => by simp [checkForms, hlc] at h, fun hall => ?_⟩,
        Or.inr (by simp [checkForms, hlc])⟩
      obtain ⟨nm, cs, hl, -, -⟩ := hall (ft, ec) (List.mem_cons_self _ _)
      rw [hlc] at hl
      cases hl
    | some t =>
      have hdir := hwf (ft, ec) (List.mem_cons_self _ _) t hlc
      cases t with
      | file n sz => simp [FSTree.isDir] at hdir
      | dir nm cs =>
        by_cases hlen : (cs.filter FSTree.isDir).length = ec
        · by_cases hemp : hasEmptyFileList (cs.filter FSTree.isDir) = true
          · refine ⟨⟨fun h => by simp [checkForms, hlc, hlen, hemp] at h,
              fun hall => ?_⟩,
              Or.inr (by simp [checkForms, hlc, hlen, hemp])⟩
            obtain ⟨nm', cs', hl', -, hall'⟩ :=
              hall (ft, ec) (List.mem_cons_self _ _)
            rw [hlc] at hl'
            cases hl'
            rw [(hasEmptyFileList_eq_false _).mpr hall'] at hemp
            cases hemp
          · have he : hasEmptyFileList (cs.filter FSTree.isDir) = false :=
              Bool.eq_false_iff.mpr hemp
            have hstep : checkForms dirName entries ((ft, ec) :: rest)
                = checkForms dirName entries rest := by
              simp [checkForms, hlc, hlen, he]
            refine ⟨?_, by rw [hstep]; exact ih2⟩
            rw [hstep]
            constructor
            · intro h r hr
              rcases List.mem_cons.mp hr with hr | hr
              · subst hr
                exact ⟨nm, cs, hlc, hlen,
                  (hasEmptyFileList_eq_false _).mp he⟩
              · exact ih1.mp h r hr
            · intro hall
              exact ih1.mpr (fun r hr => hall r (List.mem_cons_of_mem _ hr))
        · refine ⟨⟨fun h => by simp [checkForms, hlc, hlen] at h,
            fun hall => ?_⟩,
            Or.inr (by simp [checkForms, hlc, hlen])⟩
          obtain ⟨nm', cs', hl', hlen', -⟩ :=
            hall (ft, ec) (List.mem_cons_self _ _)
          rw [hlc] at hl'
          cases hl'
          exact (hlen hlen').elim

/-- C1: the verifier returns `None` exactly when every requirement of
the fixed menu is met — the type subdirectory exists, the bundle
subdirectory count equals the expected count exactly, and no file in
any bundle is empty — and otherwise returns the entity identifier; in
particular a directory meeting every requirement yields `None` and
zeroing one file makes it return the entity. -/
theorem c1_verifier (dirName : String) (entries : List FSTree)
    (hwf : formChildrenAreDirs entries = true) :
    ((tickerFilingsOk dirName entries = Except.ok none) ↔
        ∀ r ∈ filingsConfig, specReqSatisfied entries r)
    ∧ (tickerFilingsOk dirName entries ≠ Except.ok none →
        tickerFilingsOk dirName entries = Except.ok (some dirName))
    ∧ tickerFilingsOk "JPM" goodEntries = Except.ok none
    ∧ tickerFilingsOk "JPM" zeroedEntries = Except.ok (some "JPM") := by
  have hwf' : ∀ r ∈ filingsConfig, ∀ t,
      lookupChild entries r.1 = some t → t.isDir = true := by
    intro r hr t ht
    have h := List.all_eq_true.mp hwf r hr
    rw [ht] at h
    simpa using h
  obtain ⟨h1, h2⟩ := checkForms_spec dirName entries filingsConfig hwf'
  refine ⟨h1, fun hne => ?_, rfl, rfl⟩
  rcases h2 with h | h
  · exact absurd h hne
  · exact h

/-- Witness for C1 at the fully complete staged entity directory. -/
theorem c1_verifier_witness :
    formChildrenAreDirs goodEntries = true
    ∧ (((tickerFilingsOk "JPM" goodEntries = Except.ok none) ↔
          ∀ r ∈ filingsConfig, specReqSatisfied goodEntries r)
       ∧ (tickerFilingsOk "JPM" goodEntries ≠ Except.ok none →
            tickerFilingsOk "JPM" goodEntries = Except.ok (some "JPM"))
       ∧ tickerFilingsOk "JPM" goodEntries = Except.ok none
       ∧ tickerFilingsOk "JPM" zeroedEntries = Except.ok (some "JPM")) :=
  ⟨by decide, c1_verifier "JPM" goodEntries (by decide)⟩

/-- C9: the archive-packaging step of `main` is invoked exactly when
the rename-failure, download-failure and incomplete-ticker lists are
all empty; any recorded failure suppresses the zip step. -/
theorem c9_zip_gate (rf df it : List String) :
    zipStepRuns rf df it = true ↔ rf = [] ∧ df = [] ∧ it = [] := by
  simp [zipStepRuns, List.length_eq_zero, and_assoc]

/-- Witness for C9 at concrete lists: all empty lets the zip step run. -/
theorem c9_zip_gate_witness :
    zipStepRuns [] [] [] = true
      ↔ ([] : List String) = [] ∧ ([] : List String) = []
          ∧ ([] : List String) = [] :=
  c9_zip_gate [] [] []

/-- C8: the Entity Resolver maps a ticker with an override entry to that
entry's CIK and any other ticker to itself; it is a total pure lookup.
The four table entries are listed concretely. -/
theorem c8_resolver (t v : String) :
    (DELISTED_TICKER_TO_CIK.lookup t = some v → resolve t = v)
    ∧ (DELISTED_TICKER_TO_CIK.lookup t = none → resolve t = t)
    ∧ (t ∉ ["DFS", "CMA", "SNV", "PNFP"] → resolve t = t)
    ∧ resolve "DFS" = "0001393612" ∧ resolve "CMA" = "0000028412"
    ∧ resolve "SNV" = "0000018349" ∧ resolve "PNFP" = "0001115055" := by
  refine ⟨fun h => by simp [resolve, h], fun h => by simp [resolve, h],
    fun h => ?_, by decide, by decide, by decide, by decide⟩
  simp only [List.mem_cons, List.not_mem_nil, or_false, not_or] at h
  obtain ⟨h1, h2, h3, h4⟩ := h
  have e1 : (t == "DFS") = false := by simp [h1]
  have e2 : (t == "CMA") = false := by simp [h2]
  have e3 : (t == "SNV") = false := by simp [h3]
  have e4 : (t == "PNFP") = false := by simp [h4]
  simp [resolve, DELISTED_TICKER_TO_CIK, List.lookup, e1, e2, e3, e4]

/-- Witness for C8: identity on the non-overridden ticker JPM, override
on DFS. -/
theorem c8_resolver_witness :
    resolve "JPM" = "JPM" ∧ resolve "DFS" = "0001393612" :=
  ⟨(c8_resolver "JPM" "JPM").2.2.1 (by decide),
   (c8_resolver "DFS" "x").2.2.2.1⟩

/-- C10: when the first required type subdirectory is absent — in
particular for a never-fetched entity directory, which has no children
at all — the verifier raises nothing and reports the directory's name
as the failing entity. -/
theorem c10_total_on_missing (dirName : String) (entries : List FSTree)
    (h : lookupChild entries "10-K" = none) :
    tickerFilingsOk dirName entries = Except.ok (some dirName) := by
  simp [tickerFilingsOk, filingsConfig, checkForms, h]

/-- Witness for C10: the empty (never-fetched) entity directory. -/
theorem c10_total_on_missing_witness :
    lookupChild ([] : List FSTree) "10-K" = none
    ∧ tickerFilingsOk "NEVERFETCHED" [] = Except.ok (some "NEVERFETCHED") :=
  ⟨rfl, c10_total_on_missing "NEVERFETCHED" [] rfl⟩

/-- C4: `_fiscal_quarter` returns `4 - ((|m - f| mod 12) / 3)` for the
months parsed out of the period-end and fiscal-year-end strings, and in
particular 4 for (12, 12), 4 for (1, 1) and 3 for (9, 12). -/
theorem c4_fiscal_quarter (m f : Nat) (hm1 : 1 ≤ m) (hm2 : m ≤ 12)
    (hf1 : 1 ≤ f) (hf2 : f ≤ 12) :
    fiscalQuarter ("2024" ++ pad2 m ++ "15") (pad2 f ++ "31")
      = 4 - (((m : Int) - (f : Int)).natAbs % 12) / 3
    ∧ fiscalQuarter "20241231" "1231" = 4
    ∧ fiscalQuarter "20250131" "0131" = 4
    ∧ fiscalQuarter "20250930" "1231" = 3 := by
  refine ⟨?_, by decide, by decide, by decide⟩
  interval_cases m <;> interval_cases f <;> decide

/-- Witness for C4 at period month 9 with fiscal-year-end month 12. -/
theorem c4_fiscal_quarter_witness :
    (fiscalQuarter ("2024" ++ pad2 9 ++ "15") (pad2 12 ++ "31")
        = 4 - (((9 : Int) - (12 : Int)).natAbs % 12) / 3)
    ∧ fiscalQuarter "20241231" "1231" = 4
    ∧ fiscalQuarter "20250131" "0131" = 4
    ∧ fiscalQuarter "20250930" "1231" = 3 :=
  c4_fiscal_quarter 9 12 (by decide) (by decide) (by decide) (by decide)

/-- C5: a bundle whose header extraction yields no period end or no
fiscal-year-end fails closed — it is appended to the rename-failure
list, its directory and the rename log are untouched, no default
fiscal year end is substituted, and the remaining bundles are processed
exactly as they would be after recording the failure. -/
theorem c5_fail_closed (ticker formType : String) (st : RenState)
    (b : Bundle) (rest : List Bundle)
    (h : b.period = none ∨ b.fyEnd = none) :
    renameFormSec ticker formType st (b :: rest)
      = renameFormSec ticker formType
          { st with failures := st.failures ++ [b.name] } rest
    ∧ (processAccessionSec ticker formType st b).fs = st.fs
    ∧ (processAccessionSec ticker formType st b).renLog = st.renLog
    ∧ (processAccessionSec ticker formType st b).failures
        = st.failures ++ [b.name] := by
  have hb : processAccessionSec ticker formType st b
      = { st with failures := st.failures ++ [b.name] } := by
    rcases h with h | h
    · cases hfy : b.fyEnd <;> simp [processAccessionSec, h, hfy]
    · cases hp : b.period <;> simp [processAccessionSec, h, hp]
  refine ⟨?_, by rw [hb], by rw [hb], by rw [hb]⟩
  simp [renameFormSec, hb]

/-- Witness for C5: a bundle with a period end but no fiscal-year-end. -/
theorem c5_fail_closed_witness :
    (renameFormSec "JPM" "10-K" ⟨["acc1"], [], [], 0⟩
        [⟨"acc1", some "20241231", none⟩]
      = renameFormSec "JPM" "10-K" ⟨["acc1"], [], ["acc1"], 0⟩ [])
    ∧ (processAccessionSec "JPM" "10-K" ⟨["acc1"], [], [], 0⟩
        ⟨"acc1", some "20241231", none⟩).fs = ["acc1"]
    ∧ (processAccessionSec "JPM" "10-K" ⟨["acc1"], [], [], 0⟩
        ⟨"acc1", some "20241231", none⟩).renLog = []
    ∧ (processAccessionSec "JPM" "10-K" ⟨["acc1"], [], [], 0⟩
        ⟨"acc1", some "20241231", none⟩).failures = ["acc1"] :=
  c5_fail_closed "JPM" "10-K" ⟨["acc1"], [], [], 0⟩
    ⟨"acc1", some "20241231", none⟩ [] (Or.inr rfl)

lemma fetchForms_cycleLog (fetch : String → String → Nat → Option String)
    (ticker lookup : String) (a : Nat) :
    ∀ (L : List (String × Nat)) (st : DLState),
      (fetchForms fetch ticker lookup a L st).cycleLog = st.cycleLog := by
  intro L
  induction L with
  | nil => intro st; rfl
  | cons cfg rest ih =>
    intro st
    simp only [fetchForms]
    cases fetch lookup cfg.1 a <;> exact ih _

lemma fetchForms_incomplete (fetch : String → String → Nat → Option String)
    (ticker lookup : String) (a : Nat) :
    ∀ (L : List (String × Nat)) (st : DLState),
      (fetchForms fetch ticker lookup a L st).incompleteTickers
        = st.incompleteTickers := by
  intro L
  induction L with
  | nil => intro st; rfl
  | cons cfg rest ih =>
    intro st
    simp only [fetchForms]
    cases fetch lookup cfg.1 a <;> exact ih _

lemma processTicker_retry (fetch : String → String → Nat → Option String)
    (verify : String → Nat → Option String) (t inc : String)
    (a : Nat) (st : DLState)
    (hv : verify (resolve t) a = some inc) (ha : a ≤ maxAttempts) :
    processTicker fetch verify t a st
      = processTicker fetch verify t (a + 1)
          (fetchForms fetch t (resolve t) a filingsConfig
            { st with cycleLog := st.cycleLog ++ [t] }) := by
  rw [processTicker]
  rw [hv]
  simp [ha]

lemma processTicker_exhaust (fetch : String → String → Nat → Option String)
    (verify : String → Nat → Option String) (t inc : String)
    (a : Nat) (st : DLState)
    (hv : verify (resolve t) a = some inc) (ha : ¬ a ≤ maxAttempts) :
    processTicker fetch verify t a st
      = { fetchForms fetch t (resolve t) a filingsConfig
            { st with cycleLog := st.cycleLog ++ [t] } with
          incompleteTickers :=
            (fetchForms fetch t (resolve t) a filingsConfig
              { st with cycleLog := st.cycleLog ++ [t] }).incompleteTickers
              ++ [inc] } := by
  rw [processTicker]
  rw [hv]
  simp [ha]

lemma processTicker_always_fail
    (fetch : String → String → Nat → Option String)
    (verify : String → Nat → Option String) (t inc : String)
    (hv : ∀ n, verify (resolve t) n = some inc) (st : DLState) :
    (processTicker fetch verify t 1 st).cycleLog
        = st.cycleLog ++ List.replicate 6 t
    ∧ (processTicker fetch verify t 1 st).incompleteTickers
        = st.incompleteTickers ++ [inc] := by
  rw [processTicker_retry fetch verify t inc 1 st (hv 1) (by decide),
      processTicker_retry fetch verify t inc 2 _ (hv 2) (by decide),
      processTicker_retry fetch verify t inc 3 _ (hv 3) (by decide),
      processTicker_retry fetch verify t inc 4 _ (hv 4) (by decide),
      processTicker_retry fetch verify t inc 5 _ (hv 5) (by decide),
      processTicker_exhaust fetch verify t inc 6 _ (hv 6) (by decide)]
  constructor
  · simp only [fetchForms_cycleLog]
    simp [List.replicate, List.append_assoc]
  · simp only [fetchForms_incomplete]

lemma fetchForms_attemptLog (fetch : String → String → Nat → Option String)
    (ticker lookup : String) (a : Nat) :
    ∀ (L : List (String × Nat)) (st : DLState),
      (fetchForms fetch ticker lookup a L st).attemptLog
        = st.attemptLog ++ L.map (fun c => (lookup, c.1)) := by
  intro L
  induction L with
  | nil => intro st; simp [fetchForms]
  | cons cfg rest ih =>
    intro st
    simp only [fetchForms]
    cases fetch lookup cfg.1 a <;> simp [ih]

lemma fetchForms_failures_mono
    (fetch : String → String → Nat → Option String)
    (ticker lookup : String) (a : Nat) :
    ∀ (L : List (String × Nat)) (st : DLState) (x : String),
      x ∈ st.downloadFailures →
      x ∈ (fetchForms fetch ticker lookup a L st).downloadFailures := by
  intro L
  induction L with
  | nil => intro st x hx; exact hx
  | cons cfg rest ih =>
    intro st x hx
    simp only [fetchForms]
    cases fetch lookup cfg.1 a
    · exact ih _ _ hx
    · exact ih _ _ (by simp [hx])

lemma fetchForms_failure_mem
    (fetch : String → String → Nat → Option String)
    (ticker lookup : String) (a : Nat) :
    ∀ (L : List (String × Nat)) (st : DLState) (ft : String) (ec : Nat)
      (e : String), (ft, ec) ∈ L → fetch lookup ft a = some e →
      (ticker ++ "/" ++ ft ++ ": " ++ e)
        ∈ (fetchForms fetch ticker lookup a L st).downloadFailures := by
  intro L
  induction L with
  | nil => intro st ft ec e h; cases h
  | cons cfg rest ih =>
    intro st ft ec e hmem hf
    rcases List.mem_cons.mp hmem with heq | hmem
    · subst heq
      simp only [fetchForms, hf]
      exact fetchForms_failures_mono fetch ticker lookup a rest _ _
        (by simp)
    · simp only [fetchForms]
      cases fetch lookup cfg.1 a
      · exact ih _ _ _ _ hmem hf
      · exact ih _ _ _ _ hmem hf

lemma processTicker_mono (fetch : String → String → Nat → Option String)
    (verify : String → Nat → Option String) (t : String) :
    ∀ (k a : Nat) (st : DLState), maxAttempts + 1 - a ≤ k →
      (∀ x ∈ st.attemptLog,
        x ∈ (processTicker fetch verify t a st).attemptLog)
      ∧ (∀ x ∈ st.downloadFailures,
        x ∈ (processTicker fetch verify t a st).downloadFailures) := by
  intro k
  induction k with
  | zero =>
    intro a st hk
    have ha : ¬ a ≤ maxAttempts := by
      simp only [maxAttempts] at hk ⊢; omega
    rw [processTicker]
    cases verify (resolve t) a
    · constructor
      · intro x hx
        rw [fetchForms_attemptLog]
        simp [hx]
      · intro x hx
        exact fetchForms_failures_mono fetch t (resolve t) a _ _ _ hx
    · simp only [dif_neg ha]
      constructor
      · intro x hx
        rw [fetchForms_attemptLog]
        simp [hx]
      · intro x hx
        exact fetchForms_failures_mono fetch t (resolve t) a _ _ _ hx
  | succ k ih =>
    intro a st hk
    rw [processTicker]
    cases verify (resolve t) a
    · constructor
      · intro x hx
        rw [fetchForms_attemptLog]
        simp [hx]
      · intro x hx
        exact fetchForms_failures_mono fetch t (resolve t) a _ _ _ hx
    · by_cases ha : a ≤ maxAttempts
      · simp only [dif_pos ha]
        have hk' : maxAttempts + 1 - (a + 1) ≤ k := by
          simp only [maxAttempts] at ha hk ⊢; omega
        obtain ⟨ih1, ih2⟩ := ih (a + 1) (fetchForms fetch t (resolve t) a
          filingsConfig { st with cycleLog := st.cycleLog ++ [t] }) hk'
        constructor
        · intro x hx
          apply ih1
          rw [fetchForms_attemptLog]
          simp [hx]
        · intro x hx
          exact ih2 _ (fetchForms_failures_mono fetch t (resolve t) a _ _ _ hx)
      · simp only [dif_neg ha]
        constructor
        · intro x hx
          rw [fetchForms_attemptLog]
          simp [hx]
        · intro x hx
          exact fetchForms_failures_mono fetch t (resolve t) a _ _ _ hx

lemma processTicker_covers (fetch : String → String → Nat → Option String)
    (verify : String → Nat → Option String) (t : String) (a : Nat)
    (st : DLState) (ft : String) (ec : Nat) (e : String)
    (hft : (ft, ec) ∈ filingsConfig) :
    ((resolve t, ft) ∈ (processTicker fetch verify t a st).attemptLog)
    ∧ (fetch (resolve t) ft a = some e →
        (t ++ "/" ++ ft ++ ": " ++ e)
          ∈ (processTicker fetch verify t a st).downloadFailures) := by
  have hmap : (resolve t, ft) ∈ filingsConfig.map
      (fun c => (resolve t, c.1)) := by
    exact List.mem_map.mpr ⟨(ft, ec), hft, rfl⟩
  rw [processTicker]
  cases verify (resolve t) a
  · constructor
    · rw [fetchForms_attemptLog]; simp [hmap]
    · intro hf
      exact fetchForms_failure_mem fetch t (resolve t) a _ _ _ _ _ hft hf
  · by_cases ha : a ≤ maxAttempts
    · simp only [dif_pos ha]
      obtain ⟨m1, m2⟩ := processTicker_mono fetch verify t
        (maxAttempts + 1) (a + 1)
        (fetchForms fetch t (resolve t) a filingsConfig
          { st with cycleLog := st.cycleLog ++ [t] })
        (Nat.sub_le _ _)
      constructor
      · apply m1
        rw [fetchForms_attemptLog]
        simp [hmap]
      · intro hf
        exact m2 _ (fetchForms_failure_mem fetch t (resolve t) a _ _ _ _ _
          hft hf)
    · simp only [dif_neg ha]
      constructor
      · rw [fetchForms_attemptLog]; simp [hmap]
      · intro hf
        exact fetchForms_failure_mem fetch t (resolve t) a _ _ _ _ _ hft hf

lemma rosterLoop_mono (fetch : String → String → Nat → Option String)
    (verify : String → Nat → Option String) :
    ∀ (tickers : List String) (st : DLState),
      (∀ x ∈ st.attemptLog,
        x ∈ (tickers.foldl (fun st u => processTicker fetch verify u 1 st)
          st).attemptLog)
      ∧ (∀ x ∈ st.downloadFailures,
        x ∈ (tickers.foldl (fun st u => processTicker fetch verify u 1 st)
          st).downloadFailures) := by
  intro tickers
  induction tickers with
  | nil => intro st; exact ⟨fun x hx => hx, fun x hx => hx⟩
  | cons u rest ih =>
    intro st
    obtain ⟨p1, p2⟩ := processTicker_mono fetch verify u
      (maxAttempts + 1) 1 st (Nat.sub_le _ _)
    obtain ⟨i1, i2⟩ := ih (processTicker fetch verify u 1 st)
    exact ⟨fun x hx => i1 x (p1 x hx), fun x hx => i2 x (p2 x hx)⟩

/-- C7: the fetcher is fault-isolated per requirement: whatever the
fetch and verify oracles do, every `(entity, form-type)` pair of the
roster × menu is attempted (appears in the attempt log), and a fetch
failure on the first attempt of a requirement is recorded in the
download-failure list rather than aborting the run. -/
theorem c7_fault_isolated (fetch : String → String → Nat → Option String)
    (verify : String → Nat → Option String) (tickers : List String)
    (t ft : String) (ec : Nat) (e : String)
    (ht : t ∈ tickers) (hft : (ft, ec) ∈ filingsConfig) :
    (resolve t, ft) ∈ (downloadSecFilings fetch verify tickers).attemptLog
    ∧ (fetch (resolve t) ft 1 = some e →
        (t ++ "/" ++ ft ++ ": " ++ e)
          ∈ (downloadSecFilings fetch verify tickers).downloadFailures) := by
  suffices h : ∀ (ts : List String) (st : DLState), t ∈ ts →
      ((resolve t, ft) ∈ (ts.foldl
          (fun st u => processTicker fetch verify u 1 st) st).attemptLog
       ∧ (fetch (resolve t) ft 1 = some e →
          (t ++ "/" ++ ft ++ ": " ++ e) ∈ (ts.foldl
            (fun st u => processTicker fetch verify u 1 st)
            st).downloadFailures)) by
    exact h tickers DLState.init ht
  intro ts
  induction ts with
  | nil => intro st h; cases h
  | cons u rest ih =>
    intro st hmem
    rcases List.mem_cons.mp hmem with rfl | hmem
    · obtain ⟨c1, c2⟩ := processTicker_covers fetch verify t 1 st ft ec e hft
      obtain ⟨l1, l2⟩ := rosterLoop_mono fetch verify rest
        (processTicker fetch verify t 1 st)
      exact ⟨l1 _ c1, fun hf => l2 _ (c2 hf)⟩
    · exact ih _ hmem

/-- Witness for C7: a roster of two tickers where fetching 10-Qs always
fails with a network error. -/
theorem c7_fault_isolated_witness :
    (("0001393612" : String), ("10-Q" : String))
        ∈ (downloadSecFilings
            (fun _ f _ => if f == "10-Q" then some "neterr" else none)
            (fun _ _ => none) ["A", "DFS"]).attemptLog
    ∧ (((fun (_ f : String) (_ : Nat) =>
          if f == "10-Q" then some "neterr" else none) ("0001393612")
            ("10-Q") 1 = some "neterr") →
        ("DFS" ++ "/" ++ "10-Q" ++ ": " ++ "neterr")
          ∈ (downloadSecFilings
              (fun _ f _ => if f == "10-Q" then some "neterr" else none)
              (fun _ _ => none) ["A", "DFS"]).downloadFailures) := by
  have h := c7_fault_isolated
    (fun _ f _ => if f == "10-Q" then some "neterr" else none)
    (fun _ _ => none) ["A", "DFS"] "DFS" "10-Q" 8 "neterr"
    (by decide) (by decide)
  have hr : resolve "DFS" = "0001393612" := by decide
  rw [hr] at h
  exact h

/-- C2 counterexample: with a verifier that fails on every attempt, the
retry controller performs 6 fetch-verify cycles for the entity, so the
count is not `max_attempts = 5` as the claim states. -/
theorem c2_counterexample :
    (downloadSecFilings (fun _ _ _ => none) (fun s _ => some s)
        ["TICK"]).cycleLog.count "TICK" = 6
    ∧ ¬ ((downloadSecFilings (fun _ _ _ => none) (fun s _ => some s)
        ["TICK"]).cycleLog.count "TICK" = maxAttempts) := by
  have h := processTicker_always_fail (fun _ _ _ => none)
    (fun s _ => some s) "TICK" "TICK"
    (fun n => congrArg some (by decide)) DLState.init
  have hd : downloadSecFilings (fun _ _ _ => none) (fun s _ => some s)
      ["TICK"]
      = processTicker (fun _ _ _ => none) (fun s _ => some s) "TICK" 1
          DLState.init := rfl
  rw [hd, h.1]
  constructor
  · decide
  · decide

/-- C2 (amended): with a verifier failing on every attempt, the retry
controller performs exactly `max_attempts + 1 = 6` fetch attempts for
the entity — the initial attempt plus `max_attempts` retries, because
the retry guard is `attempt_num <= max_attempts` — then records it as a
permanent failure, appearing in `incomplete_tickers` exactly once. -/
theorem c2_retry_exhaustion
    (fetch : String → String → Nat → Option String)
    (verify : String → Nat → Option String) (t inc : String)
    (hv : ∀ n, verify (resolve t) n = some inc) :
    (downloadSecFilings fetch verify [t]).cycleLog
        = List.replicate (maxAttempts + 1) t
    ∧ (downloadSecFilings fetch verify [t]).incompleteTickers = [inc]
    ∧ (downloadSecFilings fetch verify [t]).incompleteTickers.count inc
        = 1 := by
  have h := processTicker_always_fail fetch verify t inc hv DLState.init
  have hd : downloadSecFilings fetch verify [t]
      = processTicker fetch verify t 1 DLState.init := rfl
  rw [hd]
  refine ⟨?_, ?_, ?_⟩
  · rw [h.1]; rfl
  · rw [h.2]; rfl
  · rw [h.2]; simp [DLState.init]

/-- Witness for the amended C2 at concrete oracles: fetches always
succeed but verification always fails. -/
theorem c2_retry_exhaustion_witness :
    (downloadSecFilings (fun _ _ _ => none) (fun s _ => some s)
        ["ZION"]).cycleLog = List.replicate (maxAttempts + 1) "ZION"
    ∧ (downloadSecFilings (fun _ _ _ => none) (fun s _ => some s)
        ["ZION"]).incompleteTickers = ["ZION"]
    ∧ (downloadSecFilings (fun _ _ _ => none) (fun s _ => some s)
        ["ZION"]).incompleteTickers.count "ZION" = 1 :=
  c2_retry_exhaustion (fun _ _ _ => none) (fun s _ => some s)
    "ZION" "ZION" (fun n => congrArg some (by decide))

lemma String.eq_of_data_eq {s t : String} (h : s.data = t.data) :
    s = t := by
  cases s; cases t; simp only at h; rw [h]

lemma append_suffix_ne (s t : String) (h : t.length ≠ 0) : s ++ t ≠ s := by
  intro he
  have hl := congrArg String.length he
  rw [String.length_append] at hl
  omega

lemma append_ne_append_of_ne (s : String) {t u : String} (h : t ≠ u) :
    s ++ t ≠ s ++ u := by
  intro he
  apply h
  have hd : (s ++ t).data = (s ++ u).data := congrArg String.data he
  rw [String.data_append, String.data_append] at hd
  exact String.eq_of_data_eq (List.append_cancel_left hd)

lemma processAccessionSec_some (ticker formType : String) (st : RenState)
    (b : Bundle) (p fy : String)
    (hp : b.period = some p) (hfy : b.fyEnd = some fy) :
    processAccessionSec ticker formType st b
      = { fs := resolveTarget st.fs (candidateName ticker formType p fy)
              :: st.fs.erase b.name,
          renLog := st.renLog
            ++ [(b.name,
                 resolveTarget st.fs (candidateName ticker formType p fy))],
          failures := st.failures,
          renamedCount := st.renamedCount + 1 } := by
  simp [processAccessionSec, hp, hfy]

lemma resolveTarget_free (fs : List String) (friendly : String)
    (h : friendly ∉ fs) : resolveTarget fs friendly = friendly := by
  simp [resolveTarget, h]

lemma resolveTarget_taken2 (a : String) (l : List String)
    (friendly : String) (h : friendly ∈ a :: l)
    (h2 : friendly ++ "_" ++ toString 2 ∉ a :: l) :
    resolveTarget (a :: l) friendly = friendly ++ "_" ++ toString 2 := by
  simp only [resolveTarget, if_pos h, List.length_cons, findSuffix,
    if_neg h2]

lemma resolveTarget_taken3 (a b : String) (l : List String)
    (friendly : String) (h : friendly ∈ a :: b :: l)
    (h2 : friendly ++ "_" ++ toString 2 ∈ a :: b :: l)
    (h3 : friendly ++ "_" ++ toString (2 + 1) ∉ a :: b :: l) :
    resolveTarget (a :: b :: l) friendly
      = friendly ++ "_" ++ toString (2 + 1) := by
  simp only [resolveTarget, if_pos h, List.length_cons, findSuffix,
    if_pos h2, if_neg h3]

/-- C6: three bundles, processed in listing order from a directory
holding exactly those three, that all compute the same candidate name
`nm` (fresh in the directory together with its `_2`/`_3` variants) are
renamed to `nm`, `nm_2` and `nm_3` respectively — the numeric suffix
starts at 2 and increments to the first free path. -/
theorem c6_collision_order (ticker formType : String) (b1 b2 b3 : Bundle)
    (p1 fy1 p2 fy2 p3 fy3 nm : String)
    (hp1 : b1.period = some p1) (hf1 : b1.fyEnd = some fy1)
    (hp2 : b2.period = some p2) (hf2 : b2.fyEnd = some fy2)
    (hp3 : b3.period = some p3) (hf3 : b3.fyEnd = some fy3)
    (hc1 : candidateName ticker formType p1 fy1 = nm)
    (hc2 : candidateName ticker formType p2 fy2 = nm)
    (hc3 : candidateName ticker formType p3 fy3 = nm)
    (hfresh : ∀ s ∈ [nm, nm ++ "_2", nm ++ "_3"],
        s ∉ [b1.name, b2.name, b3.name]) :
    (renameFormSec ticker formType ⟨[b1.name, b2.name, b3.name], [], [], 0⟩
        [b1, b2, b3]).renLog
      = [(b1.name, nm), (b2.name, nm ++ "_2"), (b3.name, nm ++ "_3")] := by
  have h1 := hfresh nm (by simp)
  have h2 := hfresh (nm ++ "_2") (by simp)
  have h3 := hfresh (nm ++ "_3") (by simp)
  simp only [List.mem_cons, List.not_mem_nil, or_false, not_or] at h1 h2 h3
  obtain ⟨h1a, h1b, h1c⟩ := h1
  obtain ⟨h2a, h2b, h2c⟩ := h2
  obtain ⟨h3a, h3b, h3c⟩ := h3
  have e2 : nm ++ "_" ++ toString (2 : Nat) = nm ++ "_2" := by
    rw [String.append_assoc]
    exact congrArg (fun x => nm ++ x) (by decide)
  have e3 : nm ++ "_" ++ toString (2 + 1 : Nat) = nm ++ "_3" := by
    rw [String.append_assoc]
    exact congrArg (fun x => nm ++ x) (by decide)
  have s21 : nm ++ "_2" ≠ nm := append_suffix_ne nm "_2" (by decide)
  have s31 : nm ++ "_3" ≠ nm := append_suffix_ne nm "_3" (by decide)
  have s32 : nm ++ "_3" ≠ nm ++ "_2" := append_ne_append_of_ne nm (by decide)
  simp only [renameFormSec, List.foldl_cons, List.foldl_nil]
  rw [processAccessionSec_some _ _ _ _ _ _ hp1 hf1, hc1]
  rw [resolveTarget_free _ _ (by simp [h1a, h1b, h1c])]
  simp only [List.erase_cons_head]
  rw [processAccessionSec_some _ _ _ _ _ _ hp2 hf2, hc2]
  rw [resolveTarget_taken2 _ _ _ (by simp)
    (by simp [e2, s21, h2b, h2c])]
  rw [e2]
  have her : (nm :: [b2.name, b3.name]).erase b2.name = nm :: [b3.name] := by
    rw [List.erase_cons_tail (by simp [h1b]), List.erase_cons_head]
  rw [her]
  rw [processAccessionSec_some _ _ _ _ _ _ hp3 hf3, hc3]
  rw [resolveTarget_taken3 _ _ _ _ (by simp) (by simp [e2])
    (by simp [e3, s31, s32, h3c])]
  rw [e3]
  simp

/-- Witness for C6: three same-quarter 8-K bundles for JPM. -/
theorem c6_collision_order_witness :
    (renameFormSec "JPM" "8-K" ⟨["a1", "a2", "a3"], [], [], 0⟩
        [⟨"a1", some "20240630", some "1231"⟩,
         ⟨"a2", some "20240630", some "1231"⟩,
         ⟨"a3", some "20240630", some "1231"⟩]).renLog
      = [("a1", "JPM_8-K_2024_Q2"), ("a2", "JPM_8-K_2024_Q2" ++ "_2"),
         ("a3", "JPM_8-K_2024_Q2" ++ "_3")] :=
  c6_collision_order "JPM" "8-K"
    ⟨"a1", some "20240630", some "1231"⟩
    ⟨"a2", some "20240630", some "1231"⟩
    ⟨"a3", some "20240630", some "1231"⟩
    "20240630" "1231" "20240630" "1231" "20240630" "1231"
    "JPM_8-K_2024_Q2" rfl rfl rfl rfl rfl rfl
    (by decide) (by decide) (by decide) (by decide)

/-- C3: re-running the renamer of `collect_bank_sec_data.py` on an
already canonically named bundle is NOT a no-op — the candidate name
collides with the bundle's own directory and it is renamed with a `_2`
suffix — whereas the `collect_bank_data.py` variant skips directories
already prefixed with the ticker and leaves the tree unchanged. -/
theorem c3_rerun_renames :
    (renameFormSec "JPM" "10-K" ⟨["JPM_10-K_2024_Q4"], [], [], 0⟩
        [⟨"JPM_10-K_2024_Q4", some "20241231", some "1231"⟩]).renLog
      = [("JPM_10-K_2024_Q4", "JPM_10-K_2024_Q4_2")]
    ∧ renameFormData "JPM" "10-K" ⟨["JPM_10-K_2024_Q4"], [], [], 0⟩
        [⟨"JPM_10-K_2024_Q4", true, none, none⟩]
      = ⟨["JPM_10-K_2024_Q4"], [], [], 0⟩ :=
  ⟨by decide, by decide⟩

end BankSec
